import Mathlib

/-!
Verification of the duplicate-check search-session controllers
(`woonstadDuplicateCheck.js` and the structurally identical
`woonstadBussDuplicateCheck.js`).

The controllers run on a single-threaded cooperative event loop.  We embed
them as an explicit state machine: the component's mutable fields become a
`SState` record, and every callback that the event loop can run (criteria
setter, debounce-timer firing, remote-call completion, countdown tick,
countdown expiry, row click, advance-button click, checkbox toggle) becomes
one `Ev` event handled by a total `step` function.  Remote responses are
modelled by `JVal`, a deep embedding of the JavaScript values the Apex proxy
can return.  The call log, the number of outstanding remote calls and the
number of emitted workflow-advance signals are recorded in the state so that
the specification's counting properties can be stated.
-/

namespace WoonstadDup

/-- JavaScript values as they can reach `_extractArray` and the completion
handler: null, undefined, primitives, arrays and plain objects (an object is
its ordered list of own enumerable properties; JS guarantees unique keys). -/
inductive JVal where
  | jnull
  | jundefined
  | jbool (b : Bool)
  | jnum (n : Int)
  | jstr (s : String)
  | jarr (elems : List JVal)
  | jobj (props : List (String × JVal))

/-- JavaScript truthiness. -/
def truthy : JVal → Bool
  | .jnull => false
  | .jundefined => false
  | .jbool b => b
  | .jnum n => n != 0
  | .jstr s => s != ""
  | .jarr _ => true
  | .jobj _ => true

/-- The `Array.isArray` test. -/
def JVal.isArr : JVal → Bool
  | .jarr _ => true
  | _ => false

/-- The element list of an array value (dummy `[]` elsewhere; only used after
an `isArr` check, mirroring how the JS code uses a value it has just tested
with `Array.isArray`). -/
def JVal.asArr : JVal → List JVal
  | .jarr xs => xs
  | _ => []

/-- Own-property lookup on an object's ordered property list. -/
def getOwn : List (String × JVal) → String → Option JVal
  | [], _ => none
  | (k, w) :: rest, key => if k = key then some w else getOwn rest key

/-- Property access `v[k]` (and the optional-chained `v?.k`): `undefined` on
null/undefined and on every non-object, the stored value (or `undefined`) on
objects. -/
def getProp (v : JVal) (k : String) : JVal :=
  match v with
  | .jobj ps => (getOwn ps k).getD .jundefined
  | _ => .jundefined

/-- The `for (const k in resp) ... if (Array.isArray(resp[k])) return resp[k]`
fallback loop of `_extractArray`: the first own property whose value is an
array. -/
def firstArrayProp : List (String × JVal) → Option (List JVal)
  | [] => none
  | (_, w) :: rest => if w.isArr then some w.asArr else firstArrayProp rest

/-- One candidate-key test of `_extractArray`:
`resp?.k && Array.isArray(resp.k)`. -/
def candOk (v : JVal) (k : String) : Bool :=
  truthy (getProp v k) && (getProp v k).isArr

/-- The `_extractArray` routine (woonstadDuplicateCheck.js lines 205-219; the business
variant is character-identical): bare arrays pass through, then the keys
`results`, `records`, `data`, `items` are probed in order, then the first
array-valued own property of an object, else the empty array. -/
def extractArray (resp : JVal) : List JVal :=
  if resp.isArr then resp.asArr
  else if candOk resp "results" then (getProp resp "results").asArr
  else if candOk resp "records" then (getProp resp "records").asArr
  else if candOk resp "data" then (getProp resp "data").asArr
  else if candOk resp "items" then (getProp resp "items").asArr
  else
    match resp with
    | .jobj ps => (firstArrayProp ps).getD []
    | _ => []

/-- The ordered candidate keys named by the specification. -/
def specCandidateKeys : List String := ["results", "records", "data", "items"]

/-- First array found under an ordered list of candidate keys. -/
def firstKeyArray (v : JVal) : List String → Option (List JVal)
  | [] => none
  | k :: ks => if (getProp v k).isArr then some (getProp v k).asArr
               else firstKeyArray v ks

/-- Extraction as the specification words it: a bare array is the result
sequence; otherwise the first array under the ordered candidate keys
`results`, `records`, `data`, `items`; otherwise the first own property of
the response object whose value is an array; otherwise empty.  Written from
the spec's words, to be compared with `extractArray` (written from the
source). -/
def extractSpecArray (resp : JVal) : List JVal :=
  if resp.isArr then resp.asArr
  else
    match firstKeyArray resp specCandidateKeys with
    | some xs => xs
    | none =>
      match resp with
      | .jobj ps => (firstArrayProp ps).getD []
      | _ => []

/-- The mutable fields of the `WoonstadDuplicateCheck` component, plus three
instrumentation fields that record the externally observable history:
`outstanding` (number of remote calls currently in flight), `calls` (the log
of issued remote-call parameter triples, in order) and `nextSignals` (number
of `FlowNavigationNextEvent` emissions). -/
structure SState where
  email : String
  phone : String
  mobile : String
  rows : List JVal
  message : String
  secondsRemaining : Nat
  loading : Bool
  newCustomerChecked : Bool
  selectedExisting : Bool
  selectedAccountId : String
  debounce : Option String
  fetchInFlight : Bool
  autoNextFired : Bool
  intervalHandle : Option Nat
  timeoutHandle : Option Nat
  hasCompletedFetchWithInputs : Bool
  needsRefetch : Bool
  pendingSig : String
  availableActions : List String
  outstanding : Nat
  calls : List (String × String × String)
  nextSignals : Nat

/-- Drop whitespace from both ends of a character list. -/
def trimChars (l : List Char) : List Char :=
  ((l.dropWhile Char.isWhitespace).reverse.dropWhile Char.isWhitespace).reverse

/-- JavaScript `String.prototype.trim`: remove surrounding whitespace. -/
def jsTrim (s : String) : String := String.mk (trimChars s.data)

/-- The setter normalization `(v || '').toString().trim()`: Flow hands the
setters a string or null/undefined (`none`); null, undefined and `''` are
falsy and replaced by `''`, then surrounding whitespace is trimmed. -/
def jsNormalizeInput (v : Option String) : String := jsTrim (v.getD "")

/-- The `_hasAnyInput` check: truthiness of the three criteria strings. -/
def hasAnyInput (s : SState) : Bool :=
  s.email != "" || s.phone != "" || s.mobile != ""

/-- The `_signature` key: `[email, phone, mobile].join('|')`. -/
def signature (s : SState) : String :=
  String.intercalate "|" [s.email, s.phone, s.mobile]

/-- The `_clearTimers` routine: clear the countdown tick and expiry handles. -/
def clearTimers (s : SState) : SState :=
  { s with intervalHandle := none, timeoutHandle := none }

/-- The `_scheduleFetch` dispatcher: no-op when all criteria are empty; while a fetch is in
flight, record the latest signature as pending refetch; otherwise cancel and
replace the debounce timer, capturing the current signature. -/
def scheduleFetch (s : SState) : SState :=
  if !hasAnyInput s then s
  else if s.fetchInFlight then
    { s with needsRefetch := true, pendingSig := signature s }
  else
    { s with debounce := some (signature s) }

/-- The test `availableActions.includes('NEXT')` (the array is always an array here). -/
def canNext (s : SState) : Bool := s.availableActions.contains "NEXT"

/-- The synchronous head of `_fetch(sig)` up to its `await`: the in-flight
guard, then set the in-flight and loading flags, clear the countdown timers,
and issue the remote call with the *current* field values (the `sig`
argument is not consulted when the parameters are built, exactly as in the
source). -/
def fetchStart (sig : String) (s : SState) : SState :=
  let _ := sig
  if s.fetchInFlight then s
  else
    let s1 := clearTimers { s with fetchInFlight := true, loading := true }
    { s1 with outstanding := s1.outstanding + 1,
              calls := s1.calls ++ [(s1.email, s1.phone, s1.mobile)] }

/-- The `_startCountdownAndAutoNext(seconds)` routine: guarded by a completed fetch and
no pending refetch; clears timers; only when NEXT is available does it set
`secondsRemaining` and install a 1000 ms recurring tick and a
`seconds * 1000` ms one-shot expiry. -/
def startCountdown (secs : Nat) (s : SState) : SState :=
  if !s.hasCompletedFetchWithInputs || s.needsRefetch then s
  else
    let s1 := clearTimers s
    if !canNext s1 then s1
    else
      { s1 with secondsRemaining := secs,
                intervalHandle := some 1000,
                timeoutHandle := some (secs * 1000) }

/-- The `_tryNext` gate (the transition gate): a no-op once fired; without NEXT it
only clears timers; otherwise it marks the gate fired, clears timers and
emits the one workflow-advance signal. -/
def tryNext (s : SState) : SState :=
  if s.autoNextFired then s
  else if !canNext s then clearTimers s
  else clearTimers { s with autoNextFired := true,
                            nextSignals := s.nextSignals + 1 }

/-- The `finally` block of `_fetch`: `this._fetchInFlight = false`, executed
after the try/catch body — including immediately after a pending-refetch
re-dispatch has started its own remote call. -/
def setFinallyDone (s : SState) : SState := { s with fetchInFlight := false }

/-- Outcome of one remote call: a resolved response value, or a rejection. -/
inductive FetchOutcome where
  | success (resp : JVal)
  | failure

/-- The generic failure message of the individual-duplicate controller. -/
def errMsg : String := "Er is een fout opgetreden bij het zoeken."

/-- The expression `(resp && typeof resp.message === 'string') ? resp.message : ''`. -/
def respMessage (resp : JVal) : String :=
  if truthy resp then
    match getProp resp "message" with
    | .jstr m => m
    | _ => ""
  else ""

/-- The completion handler of `_fetch` (the code after the `await`, the
`catch` branch, and the `finally`).  On success the rows are replaced by the
extraction result; with matches only the timers are cleared; with zero
matches either the pending refetch is consumed and re-dispatched immediately
(after which the `finally` of the completed frame resets the in-flight flag
even though the re-dispatched call is still outstanding) or the countdown is
started.  The `catch` branch behaves like the zero-match branch with the
generic failure message. -/
def handleComplete (o : FetchOutcome) (s : SState) : SState :=
  match o with
  | .success resp =>
    let rows := extractArray resp
    let s1 := { s with rows := rows, message := respMessage resp,
                       hasCompletedFetchWithInputs := true, loading := false }
    if !rows.isEmpty then setFinallyDone (clearTimers s1)
    else if s1.needsRefetch then
      let again := s1.pendingSig
      let s2 := { s1 with needsRefetch := false, pendingSig := "",
                          fetchInFlight := false }
      setFinallyDone (fetchStart again s2)
    else setFinallyDone (startCountdown 5 s1)
  | .failure =>
    let s1 := { s with rows := [], message := errMsg,
                       hasCompletedFetchWithInputs := true, loading := false }
    if s1.needsRefetch then
      let again := s1.pendingSig
      let s2 := { s1 with needsRefetch := false, pendingSig := "",
                          fetchInFlight := false }
      setFinallyDone (fetchStart again s2)
    else setFinallyDone (startCountdown 5 s1)

/-- The three criteria fields of the individual-duplicate controller (the
business controller has six fields whose setters are character-identical in
shape). -/
inductive Crit where
  | email
  | phone
  | mobile

/-- Read one criteria field. -/
def fieldOf (s : SState) : Crit → String
  | .email => s.email
  | .phone => s.phone
  | .mobile => s.mobile

/-- The assignment part of a setter: store the normalized value. -/
def updateCrit (f : Crit) (v : Option String) (s : SState) : SState :=
  match f with
  | .email => { s with email := jsNormalizeInput v }
  | .phone => { s with phone := jsNormalizeInput v }
  | .mobile => { s with mobile := jsNormalizeInput v }

/-- A full setter (`set email(v) { this._email = ...; this._scheduleFetch(); }`). -/
def setCrit (f : Crit) (v : Option String) (s : SState) : SState :=
  scheduleFetch (updateCrit f v s)

/-- The callbacks the event loop can run on this component.  `fire` is the
debounce timer firing, `complete` the settlement of one outstanding remote
call, `tick` and `expiry` the countdown timers, and the remaining three the
user-interface handlers. -/
inductive Ev where
  | setF (f : Crit) (v : Option String)
  | fire
  | complete (o : FetchOutcome)
  | tick
  | expiry
  | rowClick (id : Option String)
  | nextClick
  | checkbox (b : Bool)

/-- One event-loop step.  Events whose enabling condition does not hold (a
timer that is not installed, a completion with no outstanding call) cannot
occur and leave the state unchanged. -/
def step (s : SState) (e : Ev) : SState :=
  match e with
  | .setF f v => setCrit f v s
  | .fire =>
    match s.debounce with
    | none => s
    | some sig => fetchStart sig { s with debounce := none }
  | .complete o =>
    if s.outstanding = 0 then s
    else handleComplete o { s with outstanding := s.outstanding - 1 }
  | .tick =>
    if s.intervalHandle.isSome then
      if s.secondsRemaining > 0 then
        { s with secondsRemaining := s.secondsRemaining - 1 }
      else s
    else s
  | .expiry =>
    if s.timeoutHandle.isSome then tryNext { s with timeoutHandle := none }
    else s
  | .rowClick id =>
    match id with
    | none => s
    | some i =>
      tryNext (clearTimers { s with selectedExisting := true,
                                    selectedAccountId := i })
  | .nextClick => if !s.newCustomerChecked then s else tryNext (clearTimers s)
  | .checkbox b =>
    let s1 := { s with newCustomerChecked := b }
    if b then { s1 with selectedExisting := false, selectedAccountId := "" }
    else s1

/-- Run a list of event-loop callbacks in order. -/
def run (s : SState) (evs : List Ev) : SState := evs.foldl step s

/-- The component's state right after construction, with the Flow-provided
`availableActions`. -/
def initS (acts : List String) : SState :=
  { email := "", phone := "", mobile := "", rows := [], message := "",
    secondsRemaining := 5, loading := false, newCustomerChecked := false,
    selectedExisting := false, selectedAccountId := "", debounce := none,
    fetchInFlight := false, autoNextFired := false, intervalHandle := none,
    timeoutHandle := none, hasCompletedFetchWithInputs := false,
    needsRefetch := false, pendingSig := "", availableActions := acts,
    outstanding := 0, calls := [], nextSignals := 0 }

/-- An outcome that counts as empty: a rejection, or a response from which
extraction yields a zero-length sequence. -/
def EmptyOutcome : FetchOutcome → Prop
  | .failure => True
  | .success resp => extractArray resp = []

/-- Strings that are a trim image, i.e. carry no surrounding whitespace. -/
def IsTrimmedStr (x : String) : Prop := ∃ w, x = jsTrim w

/-- State invariant maintained by every event-loop callback: while a fetch
is in flight no debounce timer is installed, and an installed debounce timer
captured either the signature of the current criteria or was left behind by
a clearing update (in which case the criteria are now all empty); the three
criteria fields are always trimmed. -/
def Inv (s : SState) : Prop :=
  (s.fetchInFlight = true → s.debounce = none) ∧
  (∀ sig, s.debounce = some sig → sig = signature s ∨ hasAnyInput s = false) ∧
  IsTrimmedStr s.email ∧ IsTrimmedStr s.phone ∧ IsTrimmedStr s.mobile

theorem inv_initS (acts : List String) : Inv (initS acts) := by
  refine ⟨?_, ?_, ⟨"", rfl⟩, ⟨"", rfl⟩, ⟨"", rfl⟩⟩ <;> simp [initS]

theorem inv_scheduleFetch (u : SState)
    (h1 : u.fetchInFlight = true → u.debounce = none)
    (he : IsTrimmedStr u.email) (hp : IsTrimmedStr u.phone)
    (hm : IsTrimmedStr u.mobile) : Inv (scheduleFetch u) := by
  unfold scheduleFetch
  split_ifs with hin hfl
  · exact ⟨h1, fun sig _ => Or.inr (by simpa using hin), he, hp, hm⟩
  · refine ⟨fun _ => h1 hfl, fun sig hs => ?_, he, hp, hm⟩
    have hs2 : u.debounce = some sig := hs
    rw [h1 hfl] at hs2
    exact Option.noConfusion hs2
  · refine ⟨fun hfl2 => absurd hfl2 hfl, fun sig hs => ?_, he, hp, hm⟩
    exact Or.inl (by injection hs with h; exact h.symm)

theorem signature_congr (a b : SState) (h1 : a.email = b.email)
    (h2 : a.phone = b.phone) (h3 : a.mobile = b.mobile) :
    signature a = signature b := by
  simp [signature, h1, h2, h3]

theorem hasAnyInput_congr (a b : SState) (h1 : a.email = b.email)
    (h2 : a.phone = b.phone) (h3 : a.mobile = b.mobile) :
    hasAnyInput a = hasAnyInput b := by
  simp [hasAnyInput, h1, h2, h3]

theorem handleComplete_proj (o : FetchOutcome) (s : SState) :
    (handleComplete o s).debounce = s.debounce ∧
    (handleComplete o s).email = s.email ∧
    (handleComplete o s).phone = s.phone ∧
    (handleComplete o s).mobile = s.mobile ∧
    (handleComplete o s).fetchInFlight = false ∧
    (handleComplete o s).nextSignals = s.nextSignals ∧
    (handleComplete o s).autoNextFired = s.autoNextFired ∧
    (handleComplete o s).availableActions = s.availableActions := by
  cases o <;>
    simp only [handleComplete, fetchStart, startCountdown, clearTimers,
      setFinallyDone] <;>
    split_ifs <;> simp

theorem tryNext_of_fired (s : SState) (h : s.autoNextFired = true) :
    tryNext s = s := by
  unfold tryNext
  simp [h]

theorem inv_step (s : SState) (e : Ev) (h : Inv s) : Inv (step s e) := by
  obtain ⟨h1, h2, he, hp, hm⟩ := h
  cases e with
  | setF f v =>
    cases f with
    | email => exact inv_scheduleFetch _ h1 ⟨_, rfl⟩ hp hm
    | phone => exact inv_scheduleFetch _ h1 he ⟨_, rfl⟩ hm
    | mobile => exact inv_scheduleFetch _ h1 he hp ⟨_, rfl⟩
  | fire =>
    cases hdb : s.debounce with
    | none => simpa [step, hdb] using ⟨h1, h2, he, hp, hm⟩
    | some sig =>
      simp only [step, hdb]
      unfold fetchStart
      split_ifs
      · exact ⟨fun _ => rfl, fun _ hs => Option.noConfusion hs, he, hp, hm⟩
      · exact ⟨fun _ => rfl, fun _ hs => Option.noConfusion hs, he, hp, hm⟩
  | complete o =>
    simp only [step]
    split_ifs with hout
    · exact ⟨h1, h2, he, hp, hm⟩
    · set s0 : SState := { s with outstanding := s.outstanding - 1 } with hs0
      obtain ⟨pd, pe, pp, pm, pf, -, -, -⟩ := handleComplete_proj o s0
      refine ⟨fun hfl => absurd hfl (by simp [pf]), fun sig hs => ?_, ?_, ?_, ?_⟩
      · rw [pd] at hs
        rcases h2 sig hs with hl | hr
        · refine Or.inl ?_
          rw [hl]
          exact (signature_congr _ _ pe pp pm).symm
        · refine Or.inr ?_
          rw [hasAnyInput_congr _ _ pe pp pm]
          exact hr
      · rw [pe]; exact he
      · rw [pp]; exact hp
      · rw [pm]; exact hm
  | tick =>
    simp only [step]
    split_ifs <;> exact ⟨h1, h2, he, hp, hm⟩
  | expiry =>
    simp only [step]
    split_ifs
    · unfold tryNext clearTimers
      split_ifs <;> exact ⟨h1, h2, he, hp, hm⟩
    · exact ⟨h1, h2, he, hp, hm⟩
  | rowClick id =>
    cases id with
    | none => exact ⟨h1, h2, he, hp, hm⟩
    | some i =>
      simp only [step]
      unfold tryNext clearTimers
      split_ifs <;> exact ⟨h1, h2, he, hp, hm⟩
  | nextClick =>
    simp only [step]
    split_ifs
    · exact ⟨h1, h2, he, hp, hm⟩
    · unfold tryNext clearTimers
      split_ifs <;> exact ⟨h1, h2, he, hp, hm⟩
  | checkbox b =>
    simp only [step]
    split_ifs <;> exact ⟨h1, h2, he, hp, hm⟩

theorem inv_run_of (evs : List Ev) : ∀ s : SState, Inv s → Inv (run s evs) := by
  induction evs with
  | nil => exact fun s h => h
  | cons e evs ih => exact fun s h => ih (step s e) (inv_step s e h)

theorem inv_run (acts : List String) (evs : List Ev) :
    Inv (run (initS acts) evs) :=
  inv_run_of evs (initS acts) (inv_initS acts)

/-- Apply a burst of criteria-setter calls in order. -/
def applyBurst (s : SState) (b : List (Crit × Option String)) : SState :=
  b.foldl (fun t fv => setCrit fv.1 fv.2 t) s

/-- Every call of the burst leaves at least one criteria field non-empty. -/
def BurstNonEmpty : SState → List (Crit × Option String) → Prop
  | _, [] => True
  | s, fv :: rest =>
      hasAnyInput (updateCrit fv.1 fv.2 s) = true ∧
      BurstNonEmpty (setCrit fv.1 fv.2 s) rest

theorem setCrit_of_nonEmpty (s : SState) (f : Crit) (v : Option String)
    (hin : hasAnyInput (updateCrit f v s) = true)
    (hfl : s.fetchInFlight = false) :
    setCrit f v s =
      { updateCrit f v s with debounce := some (signature (updateCrit f v s)) } := by
  have hfl2 : (updateCrit f v s).fetchInFlight = false := by
    cases f <;> exact hfl
  unfold setCrit scheduleFetch
  rw [hin]
  simp [hfl2]

theorem burst_aux (b : List (Crit × Option String)) :
    ∀ s : SState, s.fetchInFlight = false → BurstNonEmpty s b →
      (applyBurst s b).calls = s.calls ∧
      (applyBurst s b).outstanding = s.outstanding ∧
      (applyBurst s b).fetchInFlight = false ∧
      (b ≠ [] →
        (applyBurst s b).debounce = some (signature (applyBurst s b))) := by
  induction b with
  | nil => exact fun s hfl _ => ⟨rfl, rfl, hfl, fun hne => absurd rfl hne⟩
  | cons fv rest ih =>
    intro s hfl hne
    have hstep := setCrit_of_nonEmpty s fv.1 fv.2 hne.1 hfl
    have hrun : applyBurst s (fv :: rest) = applyBurst (setCrit fv.1 fv.2 s) rest := rfl
    have hfl1 : (setCrit fv.1 fv.2 s).fetchInFlight = false := by
      rw [hstep]
      cases hf : fv.1 <;> simp [updateCrit] <;> exact hfl
    have hcalls1 : (setCrit fv.1 fv.2 s).calls = s.calls := by
      rw [hstep]; cases fv.1 <;> simp [updateCrit]
    have hout1 : (setCrit fv.1 fv.2 s).outstanding = s.outstanding := by
      rw [hstep]; cases fv.1 <;> simp [updateCrit]
    cases rest with
    | nil =>
      refine ⟨by rw [hrun, applyBurst]; simpa using hcalls1,
              by rw [hrun, applyBurst]; simpa using hout1,
              by rw [hrun, applyBurst]; simpa using hfl1, fun _ => ?_⟩
      rw [hrun]
      show (setCrit fv.1 fv.2 s).debounce = some (signature (setCrit fv.1 fv.2 s))
      rw [hstep]
      exact congrArg some (signature_congr _ _ rfl rfl rfl)
    | cons fv2 rest2 =>
      obtain ⟨c1, c2, c3, c4⟩ := ih (setCrit fv.1 fv.2 s) hfl1 hne.2
      exact ⟨by rw [hrun]; rw [c1, hcalls1],
             by rw [hrun]; rw [c2, hout1],
             by rw [hrun]; exact c3,
             fun _ => by rw [hrun]; exact c4 (by simp)⟩

theorem truthy_of_isArr (w : JVal) (h : w.isArr = true) : truthy w = true := by
  cases w <;> simp [JVal.isArr] at h <;> rfl

theorem handleComplete_rows (s : SState) :
    (∀ resp : JVal,
      (handleComplete (.success resp) s).rows = extractArray resp) ∧
    (handleComplete .failure s).rows = [] := by
  constructor
  · intro resp
    simp only [handleComplete, fetchStart, startCountdown, clearTimers,
      setFinallyDone]
    split_ifs <;> simp
  · simp only [handleComplete, fetchStart, startCountdown, clearTimers,
      setFinallyDone]
    split_ifs <;> simp

theorem getOwn_mem (ps : List (String × JVal)) (key : String) (w : JVal)
    (h : getOwn ps key = some w) : (key, w) ∈ ps := by
  induction ps with
  | nil => exact Option.noConfusion h
  | cons kv rest ih =>
    obtain ⟨k, w0⟩ := kv
    by_cases hk : k = key
    · subst hk
      rw [getOwn, if_pos rfl] at h
      injection h with h2
      subst h2
      exact List.mem_cons_self _ _
    · rw [getOwn, if_neg hk] at h
      exact List.mem_cons_of_mem _ (ih h)

theorem firstArrayProp_none (ps : List (String × JVal))
    (h : ∀ kv ∈ ps, (kv.2).isArr = false) : firstArrayProp ps = none := by
  induction ps with
  | nil => rfl
  | cons kv rest ih =>
    obtain ⟨k, w⟩ := kv
    rw [firstArrayProp, if_neg]
    · exact ih fun kv2 hm => h kv2 (List.mem_cons_of_mem _ hm)
    · simp [h (k, w) (List.mem_cons_self _ _)]

theorem step_signals_of_fired (t : SState) (e : Ev)
    (h : t.autoNextFired = true) : (step t e).nextSignals = t.nextSignals := by
  cases e with
  | setF f v =>
    cases f <;>
      (simp only [step, setCrit, scheduleFetch, updateCrit]
       split_ifs <;> rfl)
  | fire =>
    cases hdb : t.debounce with
    | none => simp [step, hdb]
    | some sig =>
      simp only [step, hdb, fetchStart, clearTimers]
      split_ifs <;> rfl
  | complete o =>
    simp only [step]
    split_ifs with hout
    · rfl
    · exact (handleComplete_proj o _).2.2.2.2.2.1
  | tick =>
    simp only [step]
    split_ifs <;> rfl
  | expiry =>
    simp only [step]
    split_ifs with h1
    · rw [tryNext_of_fired { t with timeoutHandle := none } h]
    · rfl
  | rowClick id =>
    cases id with
    | none => rfl
    | some i =>
      simp only [step]
      rw [tryNext_of_fired
        (clearTimers { t with selectedExisting := true, selectedAccountId := i }) h]
      rfl
  | nextClick =>
    simp only [step]
    split_ifs with h1
    · rfl
    · rw [tryNext_of_fired (clearTimers t) h]
      rfl
  | checkbox b =>
    simp only [step]
    split_ifs <;> rfl

/-- C2: for every session and every sequence of N >= 1 `requestAdvance`
invocations (the code's `_tryNext`, reached from countdown expiry, row
selection and the explicit advance button alike), given the workflow
permits advancing (`availableActions` contains NEXT), exactly one
workflow-advance signal is emitted, the gate is left fired, and once the
gate has fired no event-loop callback whatsoever emits a further signal. -/
theorem c2_transition_gate_exactly_once (s : SState) (n : Nat) (hn : 1 ≤ n)
    (hc : canNext s = true) (hf : s.autoNextFired = false) :
    (tryNext^[n] s).nextSignals = s.nextSignals + 1 ∧
    (tryNext^[n] s).autoNextFired = true ∧
    (∀ (t : SState) (e : Ev), t.autoNextFired = true →
      (step t e).nextSignals = t.nextSignals) := by
  obtain ⟨m, rfl⟩ : ∃ m, n = m + 1 :=
    ⟨n - 1, (Nat.succ_pred_eq_of_pos hn).symm⟩
  have h1 : tryNext s =
      clearTimers { s with autoNextFired := true,
                           nextSignals := s.nextSignals + 1 } := by
    unfold tryNext
    simp [hf, hc]
  have hfired : (tryNext s).autoNextFired = true := by rw [h1]; rfl
  have hfix : tryNext (tryNext s) = tryNext s := tryNext_of_fired _ hfired
  rw [Function.iterate_succ_apply, Function.iterate_fixed hfix]
  exact ⟨by rw [h1]; rfl, hfired, step_signals_of_fired⟩

/-- Witness for C2 at a concrete session: three advance requests from a
fresh session that permits NEXT emit exactly one signal. -/
theorem c2_witness :
    (tryNext^[3] (initS ["NEXT"])).nextSignals =
      (initS ["NEXT"]).nextSignals + 1 :=
  (c2_transition_gate_exactly_once (initS ["NEXT"]) 3 (by decide) (by decide)
    (by decide)).1

/-- Event trace exhibiting the broken single-flight invariant: a search is
dispatched, the criteria change mid-flight (queueing a pending refetch), the
call completes empty so the refetch is re-dispatched — after which the
completed frame's `finally` resets the in-flight flag — and a further input
change plus debounce firing then starts a second call while the re-dispatched
one is still outstanding. -/
def c5Events : List Ev :=
  [.setF .email (some "a"), .fire, .setF .email (some "b"),
   .complete (.success (.jarr [])), .setF .email (some "c"), .fire]

/-- C5: the claimed at-most-one-outstanding-call invariant is violated by
the code.  After the first four events of `c5Events` the re-dispatched
second call is outstanding yet `_fetchInFlight` is already false (the
`finally` of the completed frame reset it), so the subsequent debounce-fired
fetch passes the defensive re-check and starts a second concurrent call:
two remote calls are outstanding at once. -/
theorem c5_two_calls_outstanding :
    (run (initS ["NEXT"]) (List.take 4 c5Events)).outstanding = 1 ∧
    (run (initS ["NEXT"]) (List.take 4 c5Events)).fetchInFlight = false ∧
    (run (initS ["NEXT"]) c5Events).outstanding = 2 ∧
    (run (initS ["NEXT"]) c5Events).calls =
      [("a", "", ""), ("b", "", ""), ("c", "", "")] := by
  decide

/-- Completion-with-matches while a pending-refetch signature is set. -/
def c1Events : List Ev :=
  [.setF .email (some "a"), .fire, .setF .email (some "b"),
   .complete (.success (.jarr [.jobj [("Id", .jstr "1")]]))]

/-- Counterexample to C1: a remote call completes *with matches* while the
pending-refetch signature "b||" is set; contrary to the claim the signature
is not cleared (the flag stays raised) and no additional remote call is
issued — the call log still holds only the single original call. -/
theorem c1_counterexample :
    (run (initS ["NEXT"]) c1Events).needsRefetch = true ∧
    (run (initS ["NEXT"]) c1Events).pendingSig = "b||" ∧
    (run (initS ["NEXT"]) c1Events).calls = [("a", "", "")] ∧
    (run (initS ["NEXT"]) c1Events).rows.isEmpty = false ∧
    (run (initS ["NEXT"]) c1Events).outstanding = 0 := by
  decide

/-- C1 (amended): whenever a remote call completes with an empty outcome
(zero extracted matches or an error) while the pending-refetch flag is set,
the coordinator clears the flag and the stored signature and immediately
issues exactly one additional remote call, built from the criteria field
values current at completion time; the number of outstanding calls is
restored (one completed, one newly issued). -/
theorem c1_amended_refetch_on_empty (s : SState) (o : FetchOutcome)
    (h1 : s.outstanding ≠ 0) (h2 : s.needsRefetch = true)
    (h3 : EmptyOutcome o) :
    (step s (.complete o)).needsRefetch = false ∧
    (step s (.complete o)).pendingSig = "" ∧
    (step s (.complete o)).calls = s.calls ++ [(s.email, s.phone, s.mobile)] ∧
    (step s (.complete o)).outstanding = s.outstanding := by
  cases o with
  | failure =>
    simp [step, h1, handleComplete, h2, fetchStart, clearTimers,
      setFinallyDone]
    omega
  | success resp =>
    have hx : extractArray resp = [] := h3
    simp [step, h1, handleComplete, h2, hx, fetchStart, clearTimers,
      setFinallyDone]
    omega

/-- State with one outstanding call and a pending-refetch signature. -/
def c1wState : SState :=
  run (initS ["NEXT"]) [.setF .email (some "a"), .fire, .setF .email (some "b")]

/-- Witness for the amended C1 at a concrete state: an error completion with
the pending signature set clears it and issues exactly one further call with
the current criteria. -/
theorem c1_amended_witness :
    (step c1wState (.complete .failure)).needsRefetch = false ∧
    (step c1wState (.complete .failure)).pendingSig = "" ∧
    (step c1wState (.complete .failure)).calls =
      c1wState.calls ++ [(c1wState.email, c1wState.phone, c1wState.mobile)] ∧
    (step c1wState (.complete .failure)).outstanding = c1wState.outstanding :=
  c1_amended_refetch_on_empty c1wState .failure (by decide) (by decide) trivial

/-- A one-call burst whose only call carries all-empty criteria. -/
def c3Events : List Ev := [.setF .email (some "")]

/-- Counterexample to C3: a burst consisting of one `onCriteriaChanged` call
with all criteria fields empty, from a fresh session with no fetch
outstanding, issues no remote call at all (nothing is scheduled, pending or
in flight), contradicting the claimed "exactly one remote call ... for the
burst". -/
theorem c3_counterexample :
    (run (initS ["NEXT"]) c3Events).calls = [] ∧
    (run (initS ["NEXT"]) c3Events).debounce = none ∧
    (run (initS ["NEXT"]) c3Events).needsRefetch = false ∧
    (run (initS ["NEXT"]) c3Events).outstanding = 0 := by
  decide

/-- C3 (amended): for a burst of `onCriteriaChanged` calls while no fetch is
outstanding, each of which leaves at least one criteria field non-empty,
no remote call is issued during the burst, the debounce timer left installed
carries the signature of the last call, and when it fires exactly one remote
call is issued, with the criteria values of the last call in the burst. -/
theorem c3_amended_burst_single_call (s : SState)
    (b : List (Crit × Option String)) (hb : b ≠ [])
    (hfl : s.fetchInFlight = false) (hout : s.outstanding = 0)
    (hne : BurstNonEmpty s b) :
    (applyBurst s b).calls = s.calls ∧
    (applyBurst s b).outstanding = 0 ∧
    (applyBurst s b).debounce = some (signature (applyBurst s b)) ∧
    (step (applyBurst s b) .fire).calls =
      s.calls ++ [((applyBurst s b).email, (applyBurst s b).phone,
        (applyBurst s b).mobile)] ∧
    (step (applyBurst s b) .fire).outstanding = 1 := by
  obtain ⟨c1, c2, c3, c4⟩ := burst_aux b s hfl hne
  have hdb := c4 hb
  refine ⟨c1, by rw [c2, hout], hdb, ?_, ?_⟩
  · simp [step, hdb, fetchStart, c3, clearTimers, c1]
  · simp [step, hdb, fetchStart, c3, clearTimers, c2, hout]

/-- Witness for the amended C3: a two-call burst (email then phone) from a
fresh session schedules one timer and firing it issues exactly one call
with the final values of both fields. -/
theorem c3_amended_witness :
    (applyBurst (initS ["NEXT"])
        [(.email, some "a"), (.phone, some "b")]).calls = (initS ["NEXT"]).calls ∧
    (applyBurst (initS ["NEXT"])
        [(.email, some "a"), (.phone, some "b")]).outstanding = 0 ∧
    (applyBurst (initS ["NEXT"])
        [(.email, some "a"), (.phone, some "b")]).debounce =
      some (signature (applyBurst (initS ["NEXT"])
        [(.email, some "a"), (.phone, some "b")])) ∧
    (step (applyBurst (initS ["NEXT"])
        [(.email, some "a"), (.phone, some "b")]) .fire).calls =
      (initS ["NEXT"]).calls ++
        [((applyBurst (initS ["NEXT"])
            [(.email, some "a"), (.phone, some "b")]).email,
          (applyBurst (initS ["NEXT"])
            [(.email, some "a"), (.phone, some "b")]).phone,
          (applyBurst (initS ["NEXT"])
            [(.email, some "a"), (.phone, some "b")]).mobile)] ∧
    (step (applyBurst (initS ["NEXT"])
        [(.email, some "a"), (.phone, some "b")]) .fire).outstanding = 1 :=
  c3_amended_burst_single_call (initS ["NEXT"])
    [(.email, some "a"), (.phone, some "b")] (by simp) (by decide) (by decide)
    ⟨by decide, by decide, trivial⟩

/-- A scheduled dispatch followed by a clearing update. -/
def c4Events : List Ev := [.setF .email (some "a"), .setF .email none]

/-- An empty-result countdown followed by a clearing update. -/
def c4CdEvents : List Ev :=
  [.setF .email (some "a"), .fire, .complete (.success (.jarr [])),
   .setF .email none]

/-- Counterexample to C4: clearing the criteria cancels nothing.  After a
dispatch was scheduled for email "a", emptying the field leaves the debounce
timer installed with the stale signature, and when it fires a remote call is
issued for the cleared state; likewise, clearing the criteria during an
active countdown leaves both countdown handles installed, and the expiry
still emits the workflow-advance signal. -/
theorem c4_counterexample :
    hasAnyInput (run (initS ["NEXT"]) c4Events) = false ∧
    (run (initS ["NEXT"]) c4Events).debounce = some "a||" ∧
    (step (run (initS ["NEXT"]) c4Events) .fire).calls = [("", "", "")] ∧
    (run (initS ["NEXT"]) c4CdEvents).intervalHandle = some 1000 ∧
    (run (initS ["NEXT"]) c4CdEvents).timeoutHandle = some 5000 ∧
    (step (run (initS ["NEXT"]) c4CdEvents) .expiry).nextSignals = 1 := by
  decide

/-- C4 (amended): a criteria update that leaves all fields empty makes the
scheduler a strict no-op — the setter stores the cleared field and changes
nothing else: the debounce timer, both countdown handles, the pending-refetch
state and the call log are all left exactly as they were (so nothing new is
scheduled and no remote call is issued by the clearing call itself, but
nothing already pending is cancelled either). -/
theorem c4_amended_clear_is_noop (s : SState) (f : Crit) (v : Option String)
    (h : hasAnyInput (updateCrit f v s) = false) :
    setCrit f v s = updateCrit f v s ∧
    (setCrit f v s).debounce = s.debounce ∧
    (setCrit f v s).intervalHandle = s.intervalHandle ∧
    (setCrit f v s).timeoutHandle = s.timeoutHandle ∧
    (setCrit f v s).needsRefetch = s.needsRefetch ∧
    (setCrit f v s).pendingSig = s.pendingSig ∧
    (setCrit f v s).calls = s.calls ∧
    (setCrit f v s).outstanding = s.outstanding := by
  have h0 : setCrit f v s = updateCrit f v s := by
    unfold setCrit scheduleFetch
    rw [h]
    simp
  refine ⟨h0, ?_, ?_, ?_, ?_, ?_, ?_, ?_⟩ <;> rw [h0] <;> cases f <;> rfl

/-- Witness for the amended C4 at a concrete state: emptying the only
non-empty field right after a dispatch was scheduled leaves the timer (and
everything else) untouched. -/
theorem c4_amended_witness :
    setCrit .email none (run (initS ["NEXT"]) [.setF .email (some "a")]) =
      updateCrit .email none (run (initS ["NEXT"]) [.setF .email (some "a")]) ∧
    (setCrit .email none
        (run (initS ["NEXT"]) [.setF .email (some "a")])).debounce =
      (run (initS ["NEXT"]) [.setF .email (some "a")]).debounce ∧
    (setCrit .email none
        (run (initS ["NEXT"]) [.setF .email (some "a")])).intervalHandle =
      (run (initS ["NEXT"]) [.setF .email (some "a")]).intervalHandle ∧
    (setCrit .email none
        (run (initS ["NEXT"]) [.setF .email (some "a")])).timeoutHandle =
      (run (initS ["NEXT"]) [.setF .email (some "a")]).timeoutHandle ∧
    (setCrit .email none
        (run (initS ["NEXT"]) [.setF .email (some "a")])).needsRefetch =
      (run (initS ["NEXT"]) [.setF .email (some "a")]).needsRefetch ∧
    (setCrit .email none
        (run (initS ["NEXT"]) [.setF .email (some "a")])).pendingSig =
      (run (initS ["NEXT"]) [.setF .email (some "a")]).pendingSig ∧
    (setCrit .email none
        (run (initS ["NEXT"]) [.setF .email (some "a")])).calls =
      (run (initS ["NEXT"]) [.setF .email (some "a")]).calls ∧
    (setCrit .email none
        (run (initS ["NEXT"]) [.setF .email (some "a")])).outstanding =
      (run (initS ["NEXT"]) [.setF .email (some "a")]).outstanding :=
  c4_amended_clear_is_noop (run (initS ["NEXT"]) [.setF .email (some "a")])
    .email none (by decide)

/-- An empty completion in a session whose workflow does not permit NEXT. -/
def c6Events : List Ev :=
  [.setF .email (some "a"), .fire, .complete (.success (.jarr []))]

/-- Counterexample to C6: a completed call with zero matches and no pending
refetch, in a session whose `availableActions` does not contain NEXT, makes
the result set empty but starts no countdown at all — neither the tick nor
the expiry handle is installed — contrary to the claim that a countdown is
started for every such completion. -/
theorem c6_counterexample :
    (run (initS []) c6Events).rows.isEmpty = true ∧
    (run (initS []) c6Events).needsRefetch = false ∧
    (run (initS []) c6Events).hasCompletedFetchWithInputs = true ∧
    (run (initS []) c6Events).intervalHandle = none ∧
    (run (initS []) c6Events).timeoutHandle = none := by
  decide

/-- C6 (amended): for every completed remote call with an empty outcome
(zero extracted matches or an error — they differ only in the user-facing
message) and no pending-refetch flag, the result set is made empty and no
additional call is issued; provided the workflow permits advancing, a
countdown of the fixed default 5 seconds is started — `secondsRemaining` is
set to 5 with a recurring 1000 ms tick handle and a single 5000 ms expiry
handle — whereas without NEXT no countdown is started.  A tick decrements
the positive remaining seconds and the expiry handle is consumed by its
single firing. -/
theorem c6_amended_countdown_on_empty (s : SState) (o : FetchOutcome)
    (h1 : s.outstanding ≠ 0) (h2 : s.needsRefetch = false)
    (h3 : EmptyOutcome o) :
    (step s (.complete o)).rows = [] ∧
    (step s (.complete o)).calls = s.calls ∧
    (canNext s = true →
      (step s (.complete o)).secondsRemaining = 5 ∧
      (step s (.complete o)).intervalHandle = some 1000 ∧
      (step s (.complete o)).timeoutHandle = some 5000) ∧
    (canNext s = false →
      (step s (.complete o)).intervalHandle = none ∧
      (step s (.complete o)).timeoutHandle = none) ∧
    (∀ t : SState, t.intervalHandle.isSome = true → 0 < t.secondsRemaining →
      (step t .tick).secondsRemaining = t.secondsRemaining - 1) ∧
    (∀ t : SState, t.timeoutHandle.isSome = true →
      (step t .expiry).timeoutHandle = none) := by
  have htick : ∀ t : SState, t.intervalHandle.isSome = true →
      0 < t.secondsRemaining →
      (step t .tick).secondsRemaining = t.secondsRemaining - 1 := by
    intro t ht hpos
    simp [step, ht, hpos]
  have hexp : ∀ t : SState, t.timeoutHandle.isSome = true →
      (step t .expiry).timeoutHandle = none := by
    intro t ht
    simp only [step, ht, if_true]
    unfold tryNext clearTimers
    split_ifs <;> rfl
  cases o with
  | failure =>
    cases hcn : canNext s with
    | true =>
      have hmem : "NEXT" ∈ s.availableActions := by simpa [canNext] using hcn
      refine ⟨?_, ?_, fun _ => ⟨?_, ?_, ?_⟩, fun hy => Bool.noConfusion hy,
        htick, hexp⟩ <;>
        simp [step, h1, handleComplete, h2, startCountdown, clearTimers,
          setFinallyDone, canNext, hmem]
    | false =>
      have hmem : "NEXT" ∉ s.availableActions := by simpa [canNext] using hcn
      refine ⟨?_, ?_, fun hy => Bool.noConfusion hy, fun _ => ⟨?_, ?_⟩,
        htick, hexp⟩ <;>
        simp [step, h1, handleComplete, h2, startCountdown, clearTimers,
          setFinallyDone, canNext, hmem]
  | success resp =>
    have hx : extractArray resp = [] := h3
    cases hcn : canNext s with
    | true =>
      have hmem : "NEXT" ∈ s.availableActions := by simpa [canNext] using hcn
      refine ⟨?_, ?_, fun _ => ⟨?_, ?_, ?_⟩, fun hy => Bool.noConfusion hy,
        htick, hexp⟩ <;>
        simp [step, h1, handleComplete, h2, hx, startCountdown, clearTimers,
          setFinallyDone, canNext, hmem]
    | false =>
      have hmem : "NEXT" ∉ s.availableActions := by simpa [canNext] using hcn
      refine ⟨?_, ?_, fun hy => Bool.noConfusion hy, fun _ => ⟨?_, ?_⟩,
        htick, hexp⟩ <;>
        simp [step, h1, handleComplete, h2, hx, startCountdown, clearTimers,
          setFinallyDone, canNext, hmem]

/-- State with one outstanding call, no pending refetch, NEXT permitted. -/
def c6wState : SState := run (initS ["NEXT"]) [.setF .email (some "a"), .fire]

/-- Witness for the amended C6 at a concrete state: an error completion
empties the rows, issues no further call, and starts the 5-second countdown
with its two handles. -/
theorem c6_amended_witness :
    (step c6wState (.complete .failure)).rows = [] ∧
    (step c6wState (.complete .failure)).calls = c6wState.calls ∧
    (step c6wState (.complete .failure)).secondsRemaining = 5 ∧
    (step c6wState (.complete .failure)).intervalHandle = some 1000 ∧
    (step c6wState (.complete .failure)).timeoutHandle = some 5000 := by
  have h := c6_amended_countdown_on_empty c6wState .failure (by decide)
    (by decide) trivial
  exact ⟨h.1, h.2.1, h.2.2.1 (by decide)⟩

/-- A scheduled dispatch whose signature goes stale: the field is cleared
after scheduling, which neither cancels nor reschedules the timer. -/
def c7Events : List Ev := [.setF .email (some "a"), .setF .email none]

/-- Counterexample to C7: the debounce timer still carries the signature
"a||" (captured when email was "a"), but when the dispatch executes the
remote call is issued with the execution-time field values — all empty —
and not with the values the signature was captured from. -/
theorem c7_counterexample :
    (run (initS ["NEXT"]) c7Events).debounce = some "a||" ∧
    (run (initS ["NEXT"]) c7Events).email = "" ∧
    (step (run (initS ["NEXT"]) c7Events) .fire).calls = [("", "", "")] := by
  decide

/-- C7 (amended): the `sig` argument of `_fetch` is never consulted — the
remote lookup is always issued with the criteria field values held at
execution time.  In every reachable state with an installed debounce timer,
those execution-time values agree with the timer's captured signature
whenever at least one criteria field is non-empty (any non-empty change
reschedules the timer with a fresh signature); they are all empty exactly
when the fields were cleared after scheduling, clearing being the one
transition that leaves a stale timer behind. -/
theorem c7_amended_dispatch_uses_current_fields (acts : List String)
    (evs : List Ev) (sig : String)
    (h : (run (initS acts) evs).debounce = some sig) :
    (∀ (t : SState) (a b : String), fetchStart a t = fetchStart b t) ∧
    (step (run (initS acts) evs) .fire).calls =
      (run (initS acts) evs).calls ++
        [((run (initS acts) evs).email, (run (initS acts) evs).phone,
          (run (initS acts) evs).mobile)] ∧
    (hasAnyInput (run (initS acts) evs) = true →
      sig = signature (run (initS acts) evs)) ∧
    (hasAnyInput (run (initS acts) evs) = false →
      (run (initS acts) evs).email = "" ∧
      (run (initS acts) evs).phone = "" ∧
      (run (initS acts) evs).mobile = "") := by
  obtain ⟨i1, i2, -, -, -⟩ := inv_run acts evs
  have hfl : (run (initS acts) evs).fetchInFlight = false := by
    cases hb : (run (initS acts) evs).fetchInFlight with
    | false => rfl
    | true => rw [i1 hb] at h; exact Option.noConfusion h
  refine ⟨fun t a b => rfl, ?_, ?_, ?_⟩
  · simp [step, h, fetchStart, hfl, clearTimers]
  · intro hin
    rcases i2 sig h with hl | hr
    · exact hl
    · rw [hin] at hr
      exact Bool.noConfusion hr
  · intro hin
    have hin2 := hin
    simp [hasAnyInput] at hin2
    exact ⟨hin2.1.1, hin2.1.2, hin2.2⟩

/-- Witness for the amended C7 at a concrete state: with the timer installed
for signature "a||" and the email field still "a", firing issues one call
with the current fields, and the captured signature matches them. -/
theorem c7_amended_witness :
    (step (run (initS ["NEXT"]) [.setF .email (some "a")]) .fire).calls =
      (run (initS ["NEXT"]) [.setF .email (some "a")]).calls ++
        [((run (initS ["NEXT"]) [.setF .email (some "a")]).email,
          (run (initS ["NEXT"]) [.setF .email (some "a")]).phone,
          (run (initS ["NEXT"]) [.setF .email (some "a")]).mobile)] ∧
    "a||" = signature (run (initS ["NEXT"]) [.setF .email (some "a")]) :=
  ⟨(c7_amended_dispatch_uses_current_fields ["NEXT"]
      [.setF .email (some "a")] "a||" (by decide)).2.1,
   (c7_amended_dispatch_uses_current_fields ["NEXT"]
      [.setF .email (some "a")] "a||" (by decide)).2.2.1 (by decide)⟩

/-- C8: response extraction is applied uniformly — `_extractArray` agrees on
every JavaScript value with the specification's description (bare array,
then the ordered candidate keys results/records/data/items, then the first
array-valued own property, else empty), and a completed call counts as empty
exactly when extraction yields a zero-length sequence (success) or the call
fails (the rows become the extraction result, respectively the empty
sequence). -/
theorem c8_extraction_uniform :
    (∀ v : JVal, extractArray v = extractSpecArray v) ∧
    (∀ (s : SState) (resp : JVal), s.outstanding ≠ 0 →
      (step s (.complete (.success resp))).rows = extractArray resp) ∧
    (∀ s : SState, s.outstanding ≠ 0 →
      (step s (.complete .failure)).rows = []) := by
  refine ⟨?_, ?_, ?_⟩
  · intro v
    have hc : ∀ k, candOk v k = (getProp v k).isArr := by
      intro k
      unfold candOk
      cases hg : (getProp v k).isArr
      · simp
      · simp [truthy_of_isArr _ hg]
    unfold extractArray extractSpecArray
    rw [hc, hc, hc, hc]
    simp only [specCandidateKeys, firstKeyArray]
    split_ifs <;> rfl
  · intro s resp hout
    simp only [step]
    rw [if_neg hout]
    exact (handleComplete_rows _).1 resp
  · intro s hout
    simp only [step]
    rw [if_neg hout]
    exact (handleComplete_rows _).2

/-- Witness for C8 at a concrete state and response: a success completion
with an envelope response stores exactly the extracted array as rows. -/
theorem c8_extraction_witness :
    (step (run (initS ["NEXT"]) [.setF .email (some "a"), .fire])
        (.complete (.success (.jobj [("results", .jarr [.jnull])])))).rows =
      extractArray (.jobj [("results", .jarr [.jnull])]) :=
  c8_extraction_uniform.2.1
    (run (initS ["NEXT"]) [.setF .email (some "a"), .fire])
    (.jobj [("results", .jarr [.jnull])]) (by decide)

/-- Own enumerable properties of a value: the property list of an object,
empty for every non-object. -/
def ownProps : JVal → List (String × JVal)
  | .jobj ps => ps
  | _ => []

/-- C9: the response extractor is total by construction (it is a total
function on all of `JVal`, covering null, undefined, primitives, arrays and
objects, so no input can make it throw), and on every input that is not an
array and has no array-valued own property it returns the empty array. -/
theorem c9_extractor_total_default (v : JVal) (h1 : v.isArr = false)
    (h2 : ∀ kv ∈ ownProps v, (kv.2).isArr = false) :
    extractArray v = [] := by
  have hk : ∀ k, candOk v k = false := by
    intro k
    have hh : (getProp v k).isArr = false := by
      cases v with
      | jobj ps =>
        simp only [getProp]
        cases hgo : getOwn ps k with
        | none => rfl
        | some w => simpa using h2 (k, w) (getOwn_mem ps k w hgo)
      | jnull => rfl
      | jundefined => rfl
      | jbool b => rfl
      | jnum n => rfl
      | jstr t => rfl
      | jarr xs => rfl
    simp [candOk, hh]
  unfold extractArray
  rw [h1, hk "results", hk "records", hk "data", hk "items"]
  simp only [Bool.false_eq_true, if_false]
  cases v with
  | jobj ps =>
    show (firstArrayProp ps).getD [] = []
    rw [firstArrayProp_none ps h2]
    rfl
  | jnull => rfl
  | jundefined => rfl
  | jbool b => rfl
  | jnum n => rfl
  | jstr t => rfl
  | jarr xs => rfl

/-- Witness for C9 at a concrete input: an object with no array-valued
property extracts to the empty array. -/
theorem c9_extractor_witness :
    extractArray (.jobj [("a", .jnum 1), ("message", .jstr "x")]) = [] :=
  c9_extractor_total_default (.jobj [("a", .jnum 1), ("message", .jstr "x")])
    (by decide) (by decide)

/-- C10: every criteria-input setter stores the normalization of its value —
null/undefined become the empty string and surrounding whitespace is trimmed
(`fieldOf (setCrit f v s) f = jsTrim (v.getD "")`, and
`jsNormalizeInput none = ""`); a whitespace-only value is behaviorally
identical to a null value, so it counts as empty input and contributes
nothing toward scheduling a dispatch; and in every reachable state all three
criteria fields are trimmed strings.  (The six setters of the business
controller apply the identical `(v || '').toString().trim()`.) -/
theorem c10_setters_normalize :
    (∀ (s : SState) (f : Crit) (v : Option String),
      fieldOf (setCrit f v s) f = jsTrim (v.getD "")) ∧
    jsNormalizeInput none = "" ∧
    (∀ (s : SState) (f : Crit) (w : String), jsTrim w = "" →
      setCrit f (some w) s = setCrit f none s) ∧
    (∀ (acts : List String) (evs : List Ev),
      IsTrimmedStr (run (initS acts) evs).email ∧
      IsTrimmedStr (run (initS acts) evs).phone ∧
      IsTrimmedStr (run (initS acts) evs).mobile) := by
  refine ⟨?_, rfl, ?_, ?_⟩
  · intro s f v
    cases f <;>
      (unfold setCrit scheduleFetch
       split_ifs <;> rfl)
  · intro s f w h
    have hv : jsNormalizeInput (some w) = jsNormalizeInput none := by
      show jsTrim w = jsTrim ""
      rw [h]
      rfl
    cases f <;> simp [setCrit, updateCrit, hv]
  · intro acts evs
    obtain ⟨-, -, he, hp, hm⟩ := inv_run acts evs
    exact ⟨he, hp, hm⟩

/-- Witness for C10 at concrete inputs: setting the email field to a
whitespace-only string is the same transition as setting it to null. -/
theorem c10_setters_witness :
    setCrit .email (some "   ") (initS ["NEXT"]) =
      setCrit .email none (initS ["NEXT"]) :=
  c10_setters_normalize.2.2.1 (initS ["NEXT"]) .email "   " (by decide)

end WoonstadDup
